import Mathlib

/-!
Verification of the clover netCDF dataset-transformation core
(`clover/netcdf/utilities.py` and the per-slice warp loop of
`clover/netcdf/warp.py`) against its natural-language specification.

The embedding follows the spec's data model (section 3): a Dataset is an
ordered mapping of dimension names to Dimensions and of variable names to
Variables; a Variable carries a dtype string, an ordered list of dimension
names, an optional explicit fill value, an attribute mapping and an
N-dimensional data array.  Arrays are modelled as total functions from
multi-indices (`List Nat`) to scalar values; machine floats that occur in
the default fill table are integral-valued decimals and are modelled by
their exact integer values.  Stateful netCDF mutation is modelled by
explicit state passing; fallible operations return `Except String`.
Recursion through the dataset graph (coordinate variables) is modelled
with explicit fuel; exhausted fuel is an error, mirroring Python's
recursion limit.
-/

namespace Clover

/-- A scalar value stored in a netCDF attribute, fill value or array cell.
Numeric values (including the integral-valued float fill defaults) are
modelled as exact integers; string-typed values as strings. -/
inductive NCVal where
  | int : Int → NCVal
  | str : String → NCVal
deriving DecidableEq

/-- A netCDF dimension: current length plus the UNLIMITED flag. -/
structure Dimension where
  length : Nat
  isUnlimited : Bool
deriving DecidableEq

/-- A netCDF variable, following the spec's data model: dtype string,
ordered dimension names, optional explicit fill value, attribute mapping
and data.  `shape` is the per-axis extent fixed when the variable is
created in a dataset (the lengths of its dimensions at creation time);
`data` is a total function from multi-indices to values. -/
structure Variable where
  dtype : String
  dimensions : List String
  fill_value : Option NCVal
  shape : List Nat
  attributes : List (String × NCVal)
  data : List Nat → NCVal

/-- A netCDF dataset: ordered name-to-dimension and name-to-variable maps
plus (unmodelled here) global attributes. -/
structure Dataset where
  dimensions : List (String × Dimension)
  vars : List (String × Variable)

/-- First-match association-list lookup (dict lookup). -/
def alookup {α : Type} : List (String × α) → String → Option α
  | [], _ => none
  | (k, v) :: rest, n => if k = n then some v else alookup rest n

/-- Remove a key from an association list (Python `del`). -/
def aerase {α : Type} : List (String × α) → String → List (String × α)
  | [], _ => []
  | (k, v) :: rest, n => if k = n then aerase rest n else (k, v) :: aerase rest n

/-- Delete a variable from a dataset. -/
def eraseVar (ds : Dataset) (name : String) : Dataset :=
  { ds with vars := aerase ds.vars name }

/-- Delete a dimension from a dataset. -/
def eraseDim (ds : Dataset) (name : String) : Dataset :=
  { ds with dimensions := aerase ds.dimensions name }

/-- Apply a function to the named variable of a dataset, if present. -/
def updateVar (ds : Dataset) (name : String) (f : Variable → Variable) : Dataset :=
  { ds with vars := ds.vars.map (fun p => if p.1 = name then (p.1, f p.2) else p) }

/-- Overwrite the full data array of the named variable
(netCDF bulk assignment `variable[...] = array`). -/
def setVarData (ds : Dataset) (name : String) (d : List Nat → NCVal) : Dataset :=
  updateVar ds name (fun v => { v with data := d })

/-- `variable.setncattr` as used under a not-already-present guard:
append the attribute unless the name is present. -/
def setncattrIfMissing (attrs : List (String × NCVal)) (k : String) (v : NCVal) :
    List (String × NCVal) :=
  if (alookup attrs k).isSome then attrs else attrs ++ [(k, v)]

/-- The attribute-copy loop shared by `copy_variable`,
`concat_variable_along_dimension` and `extract_subset`: for each source
attribute in order, copy it unless already present on the target. -/
def copyMissingAttrs : List (String × NCVal) → List (String × NCVal) → List (String × NCVal)
  | tattrs, [] => tattrs
  | tattrs, (k, v) :: rest => copyMissingAttrs (setncattrIfMissing tattrs k v) rest

/-- Run the attribute-copy loop against the named variable of a dataset. -/
def setMissingAttrs (ds : Dataset) (name : String) (srcAttrs : List (String × NCVal)) : Dataset :=
  updateVar ds name (fun v => { v with attributes := copyMissingAttrs v.attributes srcAttrs })

/-- `DEFAULT_FILL_VALUES` from `clover/netcdf/utilities.py`: the external
library's `default_fillvals` table copied and then updated with the
module-level entries.  Float values are integral-valued decimals and are
modelled by their exact integer values. -/
def DEFAULT_FILL_VALUES : List (String × NCVal) :=
  [ -- netCDF4.default_fillvals (external library constants)
    ("S1", NCVal.str "\x00"),
    ("i1", NCVal.int (-127)),
    ("u1", NCVal.int 255),
    ("i2", NCVal.int (-32767)),
    ("u2", NCVal.int 65535),
    ("i4", NCVal.int (-2147483647)),
    ("u4", NCVal.int 4294967295),
    ("i8", NCVal.int (-9223372036854775806)),
    ("u8", NCVal.int 18446744073709551614),
    ("f4", NCVal.int 9969209968386869000000000000000000000),
    ("f8", NCVal.int 9969209968386869000000000000000000000),
    -- module-level update
    ("NC_FILL_BYTE", NCVal.int (-127)),
    ("NC_FILL_CHAR", NCVal.int 0),
    ("NC_FILL_SHORT", NCVal.int (-32767)),
    ("NC_FILL_INT", NCVal.int (-2147483647)),
    ("NC_FILL_FLOAT", NCVal.int 9969209968386869000000000000000000000),
    ("NC_FILL_DOUBLE", NCVal.int 9969209968386869000000000000000000000),
    ("int8", NCVal.int (-127)),
    ("int16", NCVal.int (-32767)),
    ("float32", NCVal.int 9969209968386869000000000000000000000),
    ("float64", NCVal.int 9969209968386869000000000000000000000),
    ("int32", NCVal.int (-2147483647)),
    ("uint8", NCVal.int 255),
    ("uint16", NCVal.int 65535) ]

/-- `get_dtype_string`: the dtype of the variable as a string.  Dtypes are
modelled directly as plain strings, so the quote-splitting branch of the
source (which only fires on `<class ...>` reprs) is the identity here. -/
def get_dtype_string (v : Variable) : String :=
  v.dtype

/-- `get_fill_value_for_variable`: the fill-value resolver, translated
from the source.  The `hasattr` probes are the explicit `fill_value`
property and the `_FillValue` / `missing_value` attributes; the final
dict indexing raises `KeyError` when the dtype has no table entry. -/
def get_fill_value_for_variable (v : Variable) : Except String NCVal :=
  match v.fill_value with
  | some v => .ok v
  | none =>
    match alookup v.attributes "_FillValue" with
    | some v => .ok v
    | none =>
      match alookup v.attributes "missing_value" with
      | some v => .ok v
      | none =>
        match alookup DEFAULT_FILL_VALUES (get_dtype_string v) with
        | some v => .ok v
        | none => .error "KeyError"

/-- netCDF `createDimension`: fails if the name is already declared. -/
def createDimension (ds : Dataset) (name : String) (dim : Dimension) : Except String Dataset :=
  if (alookup ds.dimensions name).isSome then .error "NetCDF: String match to name in use"
  else .ok { ds with dimensions := ds.dimensions ++ [(name, dim)] }

/-- The shape of a new variable: the current length of each of its
dimensions, failing if a dimension is not declared in the dataset. -/
def computeShape (ds : Dataset) : List String → Except String (List Nat)
  | [] => .ok []
  | d :: rest =>
    match alookup ds.dimensions d with
    | none => .error "NetCDF: Invalid dimension ID or name"
    | some dim =>
      match computeShape ds rest with
      | .error e => .error e
      | .ok tl => .ok (dim.length :: tl)

/-- netCDF `createVariable`: fails if the variable name is in use or a
dimension is undeclared; otherwise appends a fresh variable whose data is
initialized to the fill value (netCDF reads unwritten cells as fill).
Returns the updated dataset and the new variable's shape. -/
def createVariableM (ds : Dataset) (name dtype : String) (dims : List String)
    (fv : Option NCVal) : Except String (Dataset × List Nat) :=
  if (alookup ds.vars name).isSome then .error "NetCDF: String match to name in use"
  else
    match computeShape ds dims with
    | .error e => .error e
    | .ok shape =>
      .ok ({ ds with vars := ds.vars ++
              [(name, ⟨dtype, dims, fv, shape, [], fun _ => fv.getD (NCVal.int 0)⟩)] }, shape)

/-- `copy_dimension` from the source: delete-or-fail on collision, then
recreate from the source dimension (UNLIMITED preserved only when
`allow_unlimited`; a fresh UNLIMITED dimension starts at extent 0). -/
def copy_dimension (source_dataset target_dataset : Dataset) (name : String)
    (overwrite allow_unlimited : Bool) : Except String Dataset :=
  match (if (alookup target_dataset.dimensions name).isSome then
           (if overwrite then .ok (eraseDim target_dataset name)
            else .error "Target dimension already exists, and overwrite is false")
         else .ok target_dataset : Except String Dataset) with
  | .error e => .error e
  | .ok tgt =>
    match alookup source_dataset.dimensions name with
    | none => .error "KeyError"
    | some source_dimension =>
      if allow_unlimited && source_dimension.isUnlimited then
        createDimension tgt name ⟨0, true⟩
      else
        createDimension tgt name ⟨source_dimension.length, false⟩

/-- The per-dimension conflict test of `copy_variable` (source lines
97-98): the existing target dimension is accepted when its length equals
the source's OR its UNLIMITED flag equals the source's. -/
def dimensionAccepted (target_dimension source_dimension : Dimension) : Bool :=
  target_dimension.length = source_dimension.length ||
    target_dimension.isUnlimited = source_dimension.isUnlimited

/-- The per-dimension loop of `copy_variable`: check-or-copy each
dimension, then recursively copy its coordinate variable when one exists
in the source, is absent from the target and is not the variable being
copied.  `recur` is the recursive `copy_variable` call (at one less
fuel). -/
def copyVarDimLoop (recur : Dataset → Dataset → String → Bool → Option NCVal →
      Except String Dataset)
    (source_dataset : Dataset) (name : String) :
    List String → Dataset → Except String Dataset
  | [], tgt => .ok tgt
  | d :: rest, tgt =>
    match (match alookup tgt.dimensions d with
           | some target_dimension =>
             match alookup source_dataset.dimensions d with
             | none => .error "KeyError"
             | some source_dimension =>
               if dimensionAccepted target_dimension source_dimension then .ok tgt
               else .error "Dimension already exists in target, but has different size"
           | none => copy_dimension source_dataset tgt d true false :
           Except String Dataset) with
    | .error e => .error e
    | .ok tgt1 =>
      match (if (alookup source_dataset.vars d).isSome ∧
                 ¬(alookup tgt1.vars d).isSome ∧ d ≠ name then
               recur source_dataset tgt1 d true none
             else .ok tgt1 : Except String Dataset) with
      | .error e => .error e
      | .ok tgt2 => copyVarDimLoop recur source_dataset name rest tgt2

/-- `copy_variable` from the source: delete-or-fail on collision, copy
the dimension/coordinate dependency closure, resolve the fill value
(unless supplied or the dtype is string), create the variable,
bulk-assign the full source array and copy the missing attributes.
`fillKw` models the optional `fill_value` keyword argument. -/
def copy_variable (fuel : Nat) : Dataset → Dataset → String → Bool → Option NCVal →
    Except String Dataset :=
  match fuel with
  | 0 => fun _ _ _ _ _ => .error "maximum recursion depth exceeded"
  | fuel + 1 => fun source_dataset target_dataset name overwrite fillKw =>
    match (if (alookup target_dataset.vars name).isSome then
             (if overwrite then .ok (eraseVar target_dataset name)
              else .error "Target variable already exists, and overwrite is false")
           else .ok target_dataset : Except String Dataset) with
    | .error e => .error e
    | .ok tgt0 =>
      match alookup source_dataset.vars name with
      | none => .error "KeyError"
      | some source_variable =>
        match copyVarDimLoop (copy_variable fuel) source_dataset name
            source_variable.dimensions tgt0 with
        | .error e => .error e
        | .ok tgt1 =>
          match (if fillKw.isNone ∧ source_variable.dtype ≠ "str" then
                   (match get_fill_value_for_variable source_variable with
                    | .error e => .error e
                    | .ok v => .ok (some v))
                 else .ok fillKw : Except String (Option NCVal)) with
          | .error e => .error e
          | .ok fv =>
            match createVariableM tgt1 name source_variable.dtype
                source_variable.dimensions fv with
            | .error e => .error e
            | .ok (tgt2, _) =>
              .ok (setMissingAttrs (setVarData tgt2 name source_variable.data) name
                    source_variable.attributes)

/-- A Python slice object `slice(start, stop)` with possibly-absent
bounds; an entry of the `slices` argument of `extract_subset` is either
such a slice or `None` (modelled as `Option PySlice`). -/
structure PySlice where
  start : Option Nat
  stop : Option Nat
deriving DecidableEq

/-- Slice normalization of `extract_subset` (source lines 255-256): a
slice that is `None` or has `None` start is replaced wholesale by the
full current extent `[0, len(dimension))` of the source dimension. -/
def normalizeSlice (source_dataset : Dataset) (dimension : String)
    (s : Option PySlice) : Except String (Option PySlice) :=
  if s = none ∨ (s.bind PySlice.start) = none then
    match alookup source_dataset.dimensions dimension with
    | none => .error "KeyError"
    | some dim => .ok (some ⟨some 0, some dim.length⟩)
  else .ok s

/-- Reading a source array through a slice entry: a slice offsets the
index by its start; reads are only ever evaluated at in-range offsets. -/
def pyOffset : Option PySlice → Nat → Nat
  | some s, i => s.start.getD 0 + i
  | none, i => i

/-- `source_variable[slices]` as a function of the result index: each
axis index is offset by the corresponding slice's start. -/
def readPy (srcData : List Nat → NCVal) (slices : List (Option PySlice)) :
    List Nat → NCVal :=
  fun idx => srcData (List.zipWith pyOffset slices idx)

/-- Whether a multi-index is within a shape (same rank, each coordinate
below its extent). -/
def inShape : List Nat → List Nat → Bool
  | [], [] => true
  | n :: s, i :: t => decide (i < n) && inShape s t
  | _, _ => false

/-- Full bulk assignment `target_variable[:] = rhs`: every cell within
the variable's shape is overwritten; cells outside keep the old value. -/
def writeAll (vshape : List Nat) (old rhs : List Nat → NCVal) : List Nat → NCVal :=
  fun idx => if inShape vshape idx then rhs idx else old idx

/-- Leading-axis block assignment `target_variable[lo:hi] = rhs`: rows
`lo ≤ j < hi` within the variable's extent are overwritten from the
right-hand side (indexed relative to the block), other cells kept. -/
def writeRows (vshape : List Nat) (old rhs : List Nat → NCVal) (lo hi : Nat) :
    List Nat → NCVal :=
  fun idx =>
    match vshape, idx with
    | v0 :: vtail, j :: itail =>
      if lo ≤ j ∧ j < hi ∧ j < v0 ∧ inShape vtail itail then rhs ((j - lo) :: itail)
      else old idx
    | _, _ => old idx

/-- The block-copy loop of `extract_subset` (source lines 293-296):
block `i` writes target rows `[i*increment, min(i*increment + increment,
target_shape[0]))` from the source slice starting at
`slices[0].start + i*increment` (final block truncated at
`slices[0].stop`), combined with the unchanged non-leading slices. -/
def chunkedLoop (srcData : List Nat → NCVal) (restSlices : List (Option PySlice))
    (start0 stop0 increment tshape0 : Nat) (vshape : List Nat)
    (base : List Nat → NCVal) : Nat → (List Nat → NCVal)
  | 0 => base
  | m + 1 =>
    writeRows vshape
      (chunkedLoop srcData restSlices start0 stop0 increment tshape0 vshape base m)
      (readPy srcData
        (some ⟨some (start0 + m * increment),
               some (min (start0 + (m + 1) * increment) stop0)⟩ :: restSlices))
      (m * increment) (min (m * increment + increment) tshape0)

/-- The memory-bounded transfer of `extract_subset` (source lines
281-296): one bulk assignment when the target size is below the
blocksize; otherwise `BlocksizeTooSmall` when the non-leading product
already meets the blocksize, else the leading-axis block loop with
`increment = floor(target_shape[0] * blocksize / target_size)` and
`ceil(target_shape[0] / increment)` blocks.  The float arithmetic of the
source is modelled by exact integer arithmetic (faithful whenever the
involved quantities are below 2^53). -/
def extract_transfer (blocksize : Nat) (targetShape : List Nat)
    (normSlices : List (Option PySlice)) (srcData : List Nat → NCVal)
    (vshape : List Nat) (base : List Nat → NCVal) :
    Except String (List Nat → NCVal) :=
  let target_size := targetShape.prod
  if target_size < blocksize then
    .ok (writeAll vshape base (readPy srcData normSlices))
  else if blocksize ≤ targetShape.tail.prod then
    .error "blocksize must be greater than the product of the shape for all secondary dimensions"
  else
    match normSlices with
    | some ⟨some start0, some stop0⟩ :: restSlices =>
      let tshape0 := targetShape.headD 0
      let increment := tshape0 * blocksize / target_size
      let numIncrements := (tshape0 + increment - 1) / increment
      .ok (chunkedLoop srcData restSlices start0 stop0 increment tshape0 vshape base
            numIncrements)
    | _ => .error "TypeError: unsupported operand"

/-- The `if 'fill_value' not in kwargs: kwargs['fill_value'] =
get_fill_value_for_variable(...)` step shared by `extract_subset` and
`concat_variable_along_dimension`: keep an explicitly supplied fill
value, otherwise resolve one. -/
def resolveFillKw (fillKw : Option NCVal) (v : Variable) : Except String (Option NCVal) :=
  match fillKw with
  | some x => .ok (some x)
  | none =>
    match get_fill_value_for_variable v with
    | .error e => .error e
    | .ok x => .ok (some x)

/-- The per-dimension loop of `extract_subset` (source lines 250-269):
stops at a dimension named like the variable itself (self-reference
guard), normalizes the slice, computes the span, checks or creates the
target dimension, and recursively subsets the coordinate variable when
one exists in the source and not yet in the target.  Returns the updated
target, the accumulated `target_shape` and the mutated `slices` list.
`recur` is the recursive `extract_subset` call (at one less fuel); the
recursion uses the default blocksize 100000000 as in the source. -/
def extractDimLoop (recur : Dataset → Dataset → String → List (Option PySlice) →
      Option String → Nat → Option NCVal → Except String Dataset)
    (source_dataset : Dataset) (name : String) :
    List String → List (Option PySlice) → Dataset →
    Except String (Dataset × List Nat × List (Option PySlice))
  | [], slices, tgt => .ok (tgt, [], slices)
  | _ :: _, [], _ => .error "IndexError"
  | dimension :: restDims, s :: restSlices, tgt =>
    if dimension = name then .ok (tgt, [], s :: restSlices)
    else
      match normalizeSlice source_dataset dimension s with
      | .error e => .error e
      | .ok s1 =>
        match s1 with
        | some ⟨some sliceStart, some sliceStop⟩ =>
          -- dimension_length = cur_slice.stop - cur_slice.start (int arithmetic)
          match (match alookup tgt.dimensions dimension with
                 | some target_dim =>
                   if (target_dim.length : Int) = (sliceStop : Int) - (sliceStart : Int)
                   then .ok tgt
                   else .error "Target dimension already in target dataset, but with different length"
                 | none =>
                   if (sliceStop : Int) - (sliceStart : Int) < 0 then
                     .error "ValueError: size must be positive"
                   else createDimension tgt dimension
                     ⟨((sliceStop : Int) - (sliceStart : Int)).toNat, false⟩ :
                 Except String Dataset) with
          | .error e => .error e
          | .ok tgt1 =>
            match (if (alookup source_dataset.vars dimension).isSome ∧
                       ¬(alookup tgt1.vars dimension).isSome then
                     recur source_dataset tgt1 dimension [s1] none 100000000 none
                   else .ok tgt1 : Except String Dataset) with
            | .error e => .error e
            | .ok tgt2 =>
              match extractDimLoop recur source_dataset name restDims restSlices tgt2 with
              | .error e => .error e
              | .ok (tgtF, shapeRest, normRest) =>
                .ok (tgtF, (sliceStop - sliceStart) :: shapeRest, s1 :: normRest)
        | _ => .error "TypeError: unsupported operand"

/-- `extract_subset` from the source: arity assertion, target-collision
check on `name`, the per-dimension loop, fill-value resolution, variable
creation under `target_name or name`, the memory-bounded transfer, and
the missing-attribute copy.  `fillKw` models the optional `fill_value`
keyword argument. -/
def extract_subset (fuel : Nat) : Dataset → Dataset → String → List (Option PySlice) →
    Option String → Nat → Option NCVal → Except String Dataset :=
  match fuel with
  | 0 => fun _ _ _ _ _ _ _ => .error "maximum recursion depth exceeded"
  | fuel + 1 => fun source_dataset target_dataset name slices target_name blocksize fillKw =>
    match alookup source_dataset.vars name with
    | none => .error "KeyError"
    | some source_variable =>
      if slices.length ≠ source_variable.dimensions.length then .error "AssertionError"
      else if (alookup target_dataset.vars name).isSome then
        .error ("Variable with name " ++ name ++ " is already present in target dataset")
      else
        match extractDimLoop (extract_subset fuel) source_dataset name
            source_variable.dimensions slices target_dataset with
        | .error e => .error e
        | .ok (tgt1, target_shape, normSlices) =>
          match resolveFillKw fillKw source_variable with
          | .error e => .error e
          | .ok fv =>
            match createVariableM tgt1 (target_name.getD name) source_variable.dtype
                source_variable.dimensions fv with
            | .error e => .error e
            | .ok (tgt2, vshape) =>
              match extract_transfer blocksize target_shape normSlices
                  source_variable.data vshape (fun _ => fv.getD (NCVal.int 0)) with
              | .error e => .error e
              | .ok newData =>
                .ok (setMissingAttrs (setVarData tgt2 (target_name.getD name) newData)
                      (target_name.getD name) source_variable.attributes)

/-- The template-dimension loop of `concat_variable_along_dimension`
(source lines 198-201): for each dimension of the template variable, copy
the dimension (overwriting) and, when a coordinate variable of that name
exists in the first source, copy it too. -/
def concatDimLoop (fuel : Nat) (source_dataset : Dataset) :
    List String → Dataset → Except String Dataset
  | [], tgt => .ok tgt
  | dim :: rest, tgt =>
    match copy_dimension source_dataset tgt dim true false with
    | .error e => .error e
    | .ok tgt1 =>
      match (if (alookup source_dataset.vars dim).isSome then
               copy_variable fuel source_dataset tgt1 dim true none
             else .ok tgt1 : Except String Dataset) with
      | .error e => .error e
      | .ok tgt2 => concatDimLoop fuel source_dataset rest tgt2

/-- The label loop of `concat_variable_along_dimension` (source lines
206-207): `label_variable[index] = label` for each label in order. -/
def labelWrites (base : List Nat → NCVal) : List String → Nat → (List Nat → NCVal)
  | [], _ => base
  | l :: rest, index =>
    labelWrites (fun idx => if idx = [index] then NCVal.str l else base idx) rest (index + 1)

/-- The data loop of `concat_variable_along_dimension` (source lines
219-220): for each source in order, `target_variable[index,] =
source.variables[variable_name][:]`, i.e. the full source array is
assigned under leading index `index`. -/
def concatDataLoop (variable_name : String) :
    List Dataset → Nat → (List Nat → NCVal) → Except String (List Nat → NCVal)
  | [], _, acc => .ok acc
  | ds :: rest, index, acc =>
    match alookup ds.vars variable_name with
    | none => .error "KeyError"
    | some v =>
      concatDataLoop variable_name rest (index + 1)
        (fun idx =>
          match idx with
          | i :: tail => if i = index then v.data tail else acc idx
          | [] => acc [])

/-- `concat_variable_along_dimension` from the source.  An ordered
label-to-dataset mapping argument is modelled as the list of datasets
plus `labels = some <keys in order>`; a plain sequence has
`labels = none`.  `fillKw` models the optional `fill_value` keyword. -/
def concat_variable_along_dimension (fuel : Nat) (source_datasets : List Dataset)
    (labels : Option (List String)) (target_dataset : Dataset)
    (variable_name dimension_name : String) (fillKw : Option NCVal) :
    Except String Dataset :=
  if source_datasets.length ≤ 1 then .error "AssertionError"
  else
    match source_datasets with
    | [] => .error "AssertionError"
    | source_dataset :: _ =>
      match alookup source_dataset.vars variable_name with
      | none => .error "KeyError"
      | some source_variable =>
        match concatDimLoop fuel source_dataset source_variable.dimensions
            target_dataset with
        | .error e => .error e
        | .ok tgt1 =>
          match createDimension tgt1 dimension_name ⟨source_datasets.length, false⟩ with
          | .error e => .error e
          | .ok tgt2 =>
            match (match labels with
                   | none => .ok tgt2
                   | some ls =>
                     match createVariableM tgt2 dimension_name "string"
                         [dimension_name] none with
                     | .error e => .error e
                     | .ok (t, _) =>
                       .ok (updateVar t dimension_name
                             (fun v => { v with data := labelWrites v.data ls 0 })) :
                   Except String Dataset) with
            | .error e => .error e
            | .ok tgt3 =>
              match resolveFillKw fillKw source_variable with
              | .error e => .error e
              | .ok fv =>
                match createVariableM tgt3 variable_name source_variable.dtype
                    (dimension_name :: source_variable.dimensions) fv with
                | .error e => .error e
                | .ok (tgt4, _) =>
                  match concatDataLoop variable_name source_datasets 0
                      (fun _ => fv.getD (NCVal.int 0)) with
                  | .error e => .error e
                  | .ok newData =>
                    .ok (setVarData
                          (setMissingAttrs tgt4 variable_name source_variable.attributes)
                          variable_name newData)

/-- A numpy masked array: a data buffer plus a validity mask
(`true` = masked / invalid cell). -/
structure MaskedGrid where
  data : List Nat → NCVal
  mask : List Nat → Bool

/-- One slice of the `warp_like` per-slice loop (warp.py lines 91-96 and
99-104): allocate an output buffer carrying the template mask, fill it
with the fill sentinel, let the external resampling engine rewrite the
data buffer (the engine is an arbitrary function of the source slice and
the destination buffer — it cannot touch the mask), then write the
buffer into the output variable.  The netCDF write of a masked array
stores the variable's fill value at every masked cell. -/
def warpOneSlice (templateMask : List Nat → Bool) (fill : NCVal)
    (reprojectEngine : (List Nat → NCVal) → (List Nat → NCVal) → (List Nat → NCVal))
    (srcSlice : List Nat → NCVal) : List Nat → NCVal :=
  let out : MaskedGrid := { data := fun _ => fill, mask := templateMask }
  let filled : MaskedGrid := { out with data := reprojectEngine srcSlice out.data }
  fun idx => if filled.mask idx then fill else filled.data idx

/-- The per-slice loop of `warp_like`: each leading index is resampled
independently with the same template mask and fill sentinel. -/
def warp_like_slices (varData : Nat → List Nat → NCVal)
    (templateMask : List Nat → Bool) (fill : NCVal)
    (reprojectEngine : (List Nat → NCVal) → (List Nat → NCVal) → (List Nat → NCVal)) :
    Nat → List Nat → NCVal :=
  fun i => warpOneSlice templateMask fill reprojectEngine (varData i)

/-! ### Association-list and dataset-operation lemmas -/

theorem alookup_append {α : Type} (l1 l2 : List (String × α)) (n : String) :
    alookup (l1 ++ l2) n =
      (match alookup l1 n with
       | some v => some v
       | none => alookup l2 n) := by
  induction l1 with
  | nil => simp [alookup]
  | cons p rest ih =>
    obtain ⟨k, v⟩ := p
    by_cases hk : k = n
    · simp [alookup, hk]
    · simp [alookup, hk, ih]

theorem alookup_append_of_some {α : Type} {l1 : List (String × α)} {n : String} {v : α}
    (l2 : List (String × α)) (h : alookup l1 n = some v) :
    alookup (l1 ++ l2) n = some v := by
  rw [alookup_append, h]

theorem alookup_append_of_none {α : Type} {l1 : List (String × α)} {n : String}
    (l2 : List (String × α)) (h : alookup l1 n = none) :
    alookup (l1 ++ l2) n = alookup l2 n := by
  rw [alookup_append, h]

theorem alookup_single_same {α : Type} (n : String) (v : α) :
    alookup [(n, v)] n = some v := by
  simp [alookup]

theorem alookup_updateVar (ds : Dataset) (name : String) (f : Variable → Variable)
    (k : String) :
    alookup (updateVar ds name f).vars k =
      if k = name then (alookup ds.vars k).map f else alookup ds.vars k := by
  show alookup (ds.vars.map _) k = _
  induction ds.vars with
  | nil => by_cases hk : k = name <;> simp [alookup, hk]
  | cons p rest ih =>
    obtain ⟨k0, v0⟩ := p
    simp only [List.map_cons]
    by_cases h0 : k0 = name
    · rw [if_pos h0]
      by_cases hk : k0 = k
      · subst hk
        simp [alookup, h0]
      · simp [alookup, hk, ih]
    · rw [if_neg h0]
      by_cases hk : k0 = k
      · subst hk
        simp [alookup, h0]
      · simp [alookup, hk, ih]

theorem updateVar_dimensions (ds : Dataset) (name : String) (f : Variable → Variable) :
    (updateVar ds name f).dimensions = ds.dimensions := rfl

theorem createDimension_ok {ds ds' : Dataset} {name : String} {dim : Dimension}
    (h : createDimension ds name dim = .ok ds') :
    ds'.dimensions = ds.dimensions ++ [(name, dim)] ∧ ds'.vars = ds.vars ∧
      alookup ds.dimensions name = none := by
  unfold createDimension at h
  by_cases hp : (alookup ds.dimensions name).isSome
  · rw [if_pos hp] at h; exact absurd h (by simp)
  · rw [if_neg hp] at h
    cases h
    exact ⟨rfl, rfl, Option.not_isSome_iff_eq_none.mp hp⟩

theorem createDimension_pres {ds ds' : Dataset} {name : String} {dim : Dimension}
    (h : createDimension ds name dim = .ok ds') (k : String) (v : Dimension)
    (hk : alookup ds.dimensions k = some v) : alookup ds'.dimensions k = some v := by
  rw [(createDimension_ok h).1]
  exact alookup_append_of_some _ hk

theorem computeShape_cons {ds : Dataset} {d : String} {rest : List String}
    {sh : List Nat} (h : computeShape ds (d :: rest) = .ok sh) :
    ∃ dim tl, alookup ds.dimensions d = some dim ∧ computeShape ds rest = .ok tl ∧
      sh = dim.length :: tl := by
  unfold computeShape at h
  cases hd : alookup ds.dimensions d with
  | none => rw [hd] at h; exact absurd h (by simp)
  | some dim =>
    rw [hd] at h
    cases ht : computeShape ds rest with
    | error e => rw [ht] at h; exact absurd h (by simp)
    | ok tl =>
      rw [ht] at h
      cases h
      exact ⟨dim, tl, rfl, rfl, rfl⟩

theorem createVariableM_ok {ds ds' : Dataset} {name dtype : String}
    {dims : List String} {fv : Option NCVal} {sh : List Nat}
    (h : createVariableM ds name dtype dims fv = .ok (ds', sh)) :
    alookup ds.vars name = none ∧ computeShape ds dims = .ok sh ∧
      ds'.dimensions = ds.dimensions ∧
      ds'.vars = ds.vars ++ [(name, ⟨dtype, dims, fv, sh, [], fun _ => fv.getD (NCVal.int 0)⟩)] := by
  unfold createVariableM at h
  by_cases hp : (alookup ds.vars name).isSome
  · rw [if_pos hp] at h; exact absurd h (by simp)
  · rw [if_neg hp] at h
    cases hs : computeShape ds dims with
    | error e => rw [hs] at h; exact absurd h (by simp)
    | ok shape =>
      rw [hs] at h
      simp only [Except.ok.injEq, Prod.mk.injEq] at h
      obtain ⟨h1, h2⟩ := h
      subst h1
      subst h2
      exact ⟨Option.not_isSome_iff_eq_none.mp hp, rfl, rfl, rfl⟩

theorem copy_dimension_vars {src tgt tgt' : Dataset} {name : String} {ow au : Bool}
    (h : copy_dimension src tgt name ow au = .ok tgt') : tgt'.vars = tgt.vars := by
  unfold copy_dimension at h
  split at h
  · exact absurd h (by simp)
  · rename_i tgt1 heq
    have hv1 : tgt1.vars = tgt.vars := by
      split at heq
      · split at heq
        · cases heq; rfl
        · exact absurd heq (by simp)
      · cases heq; rfl
    split at h
    · exact absurd h (by simp)
    · split at h
      · rw [(createDimension_ok h).2.1, hv1]
      · rw [(createDimension_ok h).2.1, hv1]

/-! ### Attribute-copy lemmas -/

theorem copyMissingAttrs_of_disjoint :
    ∀ (src acc : List (String × NCVal)),
      (src.map Prod.fst).Nodup →
      (∀ p ∈ src, alookup acc p.1 = none) →
      copyMissingAttrs acc src = acc ++ src := by
  intro src
  induction src with
  | nil => intro acc _ _; simp [copyMissingAttrs]
  | cons p rest ih =>
    intro acc hnd hdisj
    obtain ⟨k, v⟩ := p
    have hkacc : alookup acc k = none := hdisj (k, v) (by simp)
    have hstep : setncattrIfMissing acc k v = acc ++ [(k, v)] := by
      unfold setncattrIfMissing
      rw [hkacc]
      simp
    show copyMissingAttrs (setncattrIfMissing acc k v) rest = _
    rw [hstep, ih (acc ++ [(k, v)])]
    · simp
    · simpa using hnd.of_cons
    · intro q hq
      rw [alookup_append, hdisj q (List.mem_cons_of_mem _ hq)]
      have hkq : k ≠ q.1 := by
        simp only [List.map_cons, List.nodup_cons] at hnd
        intro heq
        exact hnd.1 (heq ▸ List.mem_map_of_mem Prod.fst hq)
      simp [alookup, hkq]

theorem copyMissingAttrs_nil_left (src : List (String × NCVal))
    (hnd : (src.map Prod.fst).Nodup) : copyMissingAttrs [] src = src := by
  have := copyMissingAttrs_of_disjoint src [] hnd (fun p _ => rfl)
  simpa using this

theorem alookup_append_isSome {α : Type} (l1 l2 : List (String × α)) (n : String) :
    (alookup (l1 ++ l2) n).isSome = ((alookup l1 n).isSome || (alookup l2 n).isSome) := by
  rw [alookup_append]
  cases alookup l1 n <;> simp

theorem alookup_updateVar_isSome (ds : Dataset) (name : String) (f : Variable → Variable)
    (k : String) :
    (alookup (updateVar ds name f).vars k).isSome = (alookup ds.vars k).isSome := by
  rw [alookup_updateVar]
  by_cases hk : k = name <;> simp [hk]

theorem alookup_aerase {α : Type} (l : List (String × α)) (n k : String) :
    alookup (aerase l n) k = if k = n then none else alookup l k := by
  induction l with
  | nil => by_cases hk : k = n <;> simp [aerase, alookup, hk]
  | cons p rest ih =>
    obtain ⟨k0, v0⟩ := p
    by_cases h0 : k0 = n
    · rw [show aerase ((k0, v0) :: rest) n = aerase rest n by simp [aerase, h0], ih]
      by_cases hk : k = n
      · simp [hk]
      · have hk0 : ¬k0 = k := fun he => hk (he ▸ h0)
        simp [alookup, hk, hk0]
    · rw [show aerase ((k0, v0) :: rest) n = (k0, v0) :: aerase rest n by simp [aerase, h0]]
      by_cases hk0 : k0 = k
      · subst hk0
        have hk : ¬k0 = n := h0
        simp [alookup, hk]
      · simp [alookup, hk0, ih]

/-- Membership in a dataset's variable map is preserved. -/
def VarsMemPres (t t' : Dataset) : Prop :=
  ∀ k, (alookup t.vars k).isSome → (alookup t'.vars k).isSome

/-! ### copy_variable lemmas -/

theorem copyVarDimLoop_step_vars
    {src tgt tgt1 : Dataset} {d : String}
    (heq1 : (match alookup tgt.dimensions d with
             | some target_dimension =>
               match alookup src.dimensions d with
               | none => .error "KeyError"
               | some source_dimension =>
                 if dimensionAccepted target_dimension source_dimension then .ok tgt
                 else .error "Dimension already exists in target, but has different size"
             | none => copy_dimension src tgt d true false :
             Except String Dataset) = .ok tgt1) : tgt1.vars = tgt.vars := by
  split at heq1
  · split at heq1
    · exact absurd heq1 (by simp)
    · split at heq1
      · cases heq1; rfl
      · exact absurd heq1 (by simp)
  · exact copy_dimension_vars heq1

theorem copyVarDimLoop_mem_pres
    (recur : Dataset → Dataset → String → Bool → Option NCVal → Except String Dataset)
    (hrec : ∀ s t n ow fk t', recur s t n ow fk = .ok t' → VarsMemPres t t')
    (src : Dataset) (name : String) :
    ∀ (dims : List String) (tgt tgt' : Dataset),
      copyVarDimLoop recur src name dims tgt = .ok tgt' → VarsMemPres tgt tgt' := by
  intro dims
  induction dims with
  | nil =>
    intro tgt tgt' h
    simp only [copyVarDimLoop, Except.ok.injEq] at h
    subst h
    exact fun k hk => hk
  | cons d rest ih =>
    intro tgt tgt' h
    unfold copyVarDimLoop at h
    split at h
    · exact absurd h (by simp)
    · rename_i tgt1 heq1
      have h1 : tgt1.vars = tgt.vars := copyVarDimLoop_step_vars heq1
      split at h
      · exact absurd h (by simp)
      · rename_i tgt2 heq2
        have h2 : VarsMemPres tgt1 tgt2 := by
          split at heq2
          · exact hrec _ _ _ _ _ _ heq2
          · cases heq2; exact fun k hk => hk
        intro k hk
        refine ih tgt2 tgt' h k (h2 k ?_)
        rw [show tgt1.vars = tgt.vars from h1]
        exact hk

theorem copyVarDimLoop_materializes
    (recur : Dataset → Dataset → String → Bool → Option NCVal → Except String Dataset)
    (hrec : ∀ s t n ow fk t', recur s t n ow fk = .ok t' → VarsMemPres t t')
    (hadds : ∀ s t n ow fk t', recur s t n ow fk = .ok t' → (alookup t'.vars n).isSome)
    (src : Dataset) (name : String) :
    ∀ (dims : List String) (tgt tgt' : Dataset),
      copyVarDimLoop recur src name dims tgt = .ok tgt' →
      ∀ d, d ∈ dims → (alookup src.vars d).isSome → d ≠ name →
        (alookup tgt'.vars d).isSome := by
  intro dims
  induction dims with
  | nil =>
    intro tgt tgt' _ d hd
    exact absurd hd (List.not_mem_nil d)
  | cons d0 rest ih =>
    intro tgt tgt' h d hd hsrc hne
    unfold copyVarDimLoop at h
    split at h
    · exact absurd h (by simp)
    · rename_i tgt1 heq1
      split at h
      · exact absurd h (by simp)
      · rename_i tgt2 heq2
        rcases List.mem_cons.mp hd with rfl | hdrest
        · have h2mem : (alookup tgt2.vars d).isSome := by
            split at heq2
            · exact hadds _ _ _ _ _ _ heq2
            · rename_i hguard
              cases heq2
              by_cases hp : (alookup tgt1.vars d).isSome
              · exact hp
              · exact absurd ⟨hsrc, hp, hne⟩ hguard
          exact copyVarDimLoop_mem_pres recur hrec src name rest tgt2 tgt' h d h2mem
        · exact ih tgt2 tgt' h d hdrest hsrc hne

theorem copy_variable_creates :
    ∀ (fuel : Nat) (s t : Dataset) (n : String) (ow : Bool) (fk : Option NCVal)
      (t' : Dataset), copy_variable fuel s t n ow fk = .ok t' →
      (alookup t'.vars n).isSome := by
  intro fuel s t n ow fk t' h
  cases fuel with
  | zero => exact absurd h (by simp [copy_variable])
  | succ fuel =>
    unfold copy_variable at h
    split at h
    · exact absurd h (by simp)
    · split at h
      · exact absurd h (by simp)
      · rename_i tgt0 heq0 sv hsv
        split at h
        · exact absurd h (by simp)
        · rename_i tgt1 heq1
          split at h
          · exact absurd h (by simp)
          · rename_i fv hfv
            split at h
            · exact absurd h (by simp)
            · rename_i tgt2 vsh hcv
              simp only [Except.ok.injEq] at h
              subst h
              show (alookup (updateVar (updateVar tgt2 n _) n _).vars n).isSome
              rw [alookup_updateVar_isSome, alookup_updateVar_isSome,
                (createVariableM_ok hcv).2.2.2, alookup_append_isSome]
              simp [alookup_single_same]

theorem copy_variable_mem_pres :
    ∀ (fuel : Nat) (s t : Dataset) (n : String) (ow : Bool) (fk : Option NCVal)
      (t' : Dataset), copy_variable fuel s t n ow fk = .ok t' → VarsMemPres t t' := by
  intro fuel
  induction fuel with
  | zero => intro s t n ow fk t' h; exact absurd h (by simp [copy_variable])
  | succ fuel ih =>
    intro s t n ow fk t' h
    intro k hk
    by_cases hkn : k = n
    · subst hkn
      exact copy_variable_creates (fuel + 1) s t k ow fk t' h
    · unfold copy_variable at h
      split at h
      · exact absurd h (by simp)
      · rename_i tgt0 heq0
        have h0 : (alookup tgt0.vars k).isSome := by
          split at heq0
          · split at heq0
            · cases heq0
              show (alookup (aerase t.vars n) k).isSome
              rw [alookup_aerase, if_neg hkn]
              exact hk
            · exact absurd heq0 (by simp)
          · cases heq0; exact hk
        split at h
        · exact absurd h (by simp)
        · rename_i sv hsv
          split at h
          · exact absurd h (by simp)
          · rename_i tgt1 heq1
            have h1 : (alookup tgt1.vars k).isSome :=
              copyVarDimLoop_mem_pres (copy_variable fuel) (fun s t n ow fk t' hh => ih s t n ow fk t' hh)
                s n sv.dimensions tgt0 tgt1 heq1 k h0
            split at h
            · exact absurd h (by simp)
            · rename_i fv hfv
              split at h
              · exact absurd h (by simp)
              · rename_i tgt2 vsh hcv
                simp only [Except.ok.injEq] at h
                subst h
                show (alookup (updateVar (updateVar tgt2 n _) n _).vars k).isSome
                rw [alookup_updateVar_isSome, alookup_updateVar_isSome,
                  (createVariableM_ok hcv).2.2.2, alookup_append_isSome, h1]
                simp

/-! ### Claim C2: copy fidelity -/

/-- C2: for every Variable V in a source dataset and an empty target
dataset, after `copy_variable(src, empty_target, V.name)` succeeds, the
target variable's data equals the source data and its attribute list is
identical to the source's — nothing missing, nothing extra, nothing
altered.  (The source attribute names are pairwise distinct, as netCDF
attribute names are.) -/
theorem copy_variable_fidelity (fuel : Nat) (src tgt : Dataset) (name : String)
    (sv : Variable) (tgt' : Dataset)
    (_hempty : tgt.vars = [])
    (hsv : alookup src.vars name = some sv)
    (hnd : (sv.attributes.map Prod.fst).Nodup)
    (h : copy_variable fuel src tgt name true none = .ok tgt') :
    ∃ v', alookup tgt'.vars name = some v' ∧ v'.data = sv.data ∧
      v'.attributes = sv.attributes := by
  cases fuel with
  | zero => exact absurd h (by simp [copy_variable])
  | succ fuel =>
    unfold copy_variable at h
    split at h
    · exact absurd h (by simp)
    · rename_i tgt0 heq0
      split at h
      · exact absurd h (by simp)
      · rename_i sv2 hsv2
        rw [hsv] at hsv2
        injection hsv2 with he
        subst he
        split at h
        · exact absurd h (by simp)
        · rename_i tgt1 heq1
          split at h
          · exact absurd h (by simp)
          · rename_i fv hfv
            split at h
            · exact absurd h (by simp)
            · rename_i tgt2 vsh hcv
              simp only [Except.ok.injEq] at h
              subst h
              have hok := createVariableM_ok hcv
              have h2 : alookup tgt2.vars name =
                  some (⟨sv.dtype, sv.dimensions, fv, vsh, [],
                         fun _ => fv.getD (NCVal.int 0)⟩ : Variable) := by
                rw [hok.2.2.2, alookup_append_of_none _ hok.1]
                exact alookup_single_same _ _
              show ∃ v', alookup (updateVar (updateVar tgt2 name _) name _).vars name
                  = some v' ∧ _
              rw [alookup_updateVar, if_pos rfl, alookup_updateVar, if_pos rfl, h2]
              simp only [Option.map_some']
              exact ⟨_, rfl, rfl, copyMissingAttrs_nil_left sv.attributes hnd⟩

/-- A small concrete source variable used by witnesses. -/
def demoVar : Variable :=
  ⟨"int16", ["t"], none, [2],
    [("units", NCVal.str "m"), ("scale", NCVal.int 2)],
    fun idx => NCVal.int (Int.ofNat (idx.headD 0))⟩

/-- A small concrete source dataset used by witnesses. -/
def demoSourceDs : Dataset :=
  { dimensions := [("t", ⟨2, false⟩)], vars := [("v", demoVar)] }

/-- An empty dataset. -/
def emptyDs : Dataset := { dimensions := [], vars := [] }

/-- The dataset produced by the C2 witness run. -/
def c2ResultDs : Dataset :=
  (copy_variable 2 demoSourceDs emptyDs "v" true none).toOption.getD emptyDs

theorem copy_variable_fidelity_witness :
    copy_variable 2 demoSourceDs emptyDs "v" true none = .ok c2ResultDs ∧
    (alookup c2ResultDs.vars "v").map Variable.data = some demoVar.data ∧
    (alookup c2ResultDs.vars "v").map Variable.attributes = some demoVar.attributes := by
  obtain ⟨v', h1, h2, h3⟩ :=
    copy_variable_fidelity 2 demoSourceDs emptyDs "v" demoVar c2ResultDs rfl rfl
      (by decide) rfl
  refine ⟨rfl, ?_, ?_⟩
  · rw [h1]
    simpa using h2
  · rw [h1]
    simpa using h3

/-! ### Claim C3: the dimension-conflict check -/

/-- Concrete source for C3: variable `v` over dimension `x` of length 7. -/
def c3SourceDs : Dataset :=
  { dimensions := [("x", ⟨7, false⟩)],
    vars := [("v", ⟨"int16", ["x"], none, [7], [], fun _ => NCVal.int 1⟩)] }

/-- Concrete target for C3: dimension `x` already present with length 5. -/
def c3TargetDs : Dataset := { dimensions := [("x", ⟨5, false⟩)], vars := [] }

/-- C3 (claim is right, code is wrong): the spec and the function's own
docstring require `copy_variable` to fail with DimensionConflict whenever
an existing target dimension's length differs from the source's, but the
conflict test (source lines 97-98) accepts the pair as soon as the
length OR the UNLIMITED flag matches.  For two fixed-length dimensions of
lengths 5 (target) and 7 (source) the UNLIMITED flags agree, so the check
passes and the copy proceeds without raising the conflict error. -/
def c3ResultDs : Dataset :=
  (copy_variable 1 c3SourceDs c3TargetDs "v" true none).toOption.getD emptyDs

theorem copy_variable_conflict_check_not_triggered :
    dimensionAccepted ⟨5, false⟩ ⟨7, false⟩ = true ∧
    copy_variable 1 c3SourceDs c3TargetDs "v" true none = .ok c3ResultDs :=
  ⟨rfl, rfl⟩

/-! ### Claim C4: dependency closure -/

/-- C4: a successful `copy_variable` of a Variable whose dimension `d` is
also a coordinate-variable name in the source (and is not the variable
being copied, and is absent from the target) materializes `d` as a
variable in the target. -/
theorem copy_variable_dependency_closure (fuel : Nat) (src tgt : Dataset)
    (name : String) (ow : Bool) (fk : Option NCVal) (tgt' : Dataset) (sv : Variable)
    (d : String)
    (h : copy_variable fuel src tgt name ow fk = .ok tgt')
    (hsv : alookup src.vars name = some sv)
    (hd : d ∈ sv.dimensions)
    (hdv : (alookup src.vars d).isSome)
    (hne : d ≠ name)
    (_habs : (alookup tgt.vars d).isSome = false) :
    (alookup tgt'.vars d).isSome := by
  cases fuel with
  | zero => exact absurd h (by simp [copy_variable])
  | succ fuel =>
    unfold copy_variable at h
    split at h
    · exact absurd h (by simp)
    · rename_i tgt0 heq0
      split at h
      · exact absurd h (by simp)
      · rename_i sv2 hsv2
        rw [hsv] at hsv2
        injection hsv2 with he
        subst he
        split at h
        · exact absurd h (by simp)
        · rename_i tgt1 heq1
          have hd1 : (alookup tgt1.vars d).isSome :=
            copyVarDimLoop_materializes (copy_variable fuel)
              (fun s t n ow fk t' hh => copy_variable_mem_pres fuel s t n ow fk t' hh)
              (fun s t n ow fk t' hh => copy_variable_creates fuel s t n ow fk t' hh)
              src name sv.dimensions tgt0 tgt1 heq1 d hd hdv hne
          split at h
          · exact absurd h (by simp)
          · rename_i fv hfv
            split at h
            · exact absurd h (by simp)
            · rename_i tgt2 vsh hcv
              simp only [Except.ok.injEq] at h
              subst h
              show (alookup (updateVar (updateVar tgt2 name _) name _).vars d).isSome
              rw [alookup_updateVar_isSome, alookup_updateVar_isSome,
                (createVariableM_ok hcv).2.2.2, alookup_append_isSome, hd1]
              simp

/-- Concrete source for the C4 witness: `v` depends on coordinate
dimension `time`, which has an associated coordinate variable. -/
def c4SourceDs : Dataset :=
  { dimensions := [("time", ⟨2, false⟩)],
    vars := [("time", ⟨"int32", ["time"], none, [2], [],
               fun idx => NCVal.int (Int.ofNat (idx.headD 0))⟩),
             ("v", ⟨"int16", ["time"], none, [2], [], fun _ => NCVal.int 3⟩)] }

/-- The dataset produced by the C4 witness run. -/
def c4ResultDs : Dataset :=
  (copy_variable 3 c4SourceDs emptyDs "v" true none).toOption.getD emptyDs

theorem copy_variable_dependency_closure_witness :
    copy_variable 3 c4SourceDs emptyDs "v" true none = .ok c4ResultDs ∧
    (alookup c4ResultDs.vars "time").isSome = true :=
  ⟨rfl, copy_variable_dependency_closure 3 c4SourceDs emptyDs "v" true none
    c4ResultDs _ "time" rfl rfl (by decide) rfl (by decide) rfl⟩

/-! ### Claim C5: fill-value resolution order -/

/-- C5: the fill-value resolver returns (1) the explicit `fill_value`
property if present, else (2) the `_FillValue` attribute, else (3) the
`missing_value` attribute, else (4) the FillPolicy table entry for the
dtype string (`int16` maps to `-32767`); `_FillValue` beats
`missing_value`; and it fails (UnknownDtype) exactly when none of (1)-(3)
apply and the dtype has no table entry. -/
theorem get_fill_value_resolution (v : Variable) :
    (∀ x, v.fill_value = some x → get_fill_value_for_variable v = .ok x) ∧
    (v.fill_value = none → ∀ x, alookup v.attributes "_FillValue" = some x →
      get_fill_value_for_variable v = .ok x) ∧
    (v.fill_value = none → alookup v.attributes "_FillValue" = none →
      ∀ x, alookup v.attributes "missing_value" = some x →
      get_fill_value_for_variable v = .ok x) ∧
    (v.fill_value = none → alookup v.attributes "_FillValue" = none →
      alookup v.attributes "missing_value" = none →
      ∀ x, alookup DEFAULT_FILL_VALUES (get_dtype_string v) = some x →
      get_fill_value_for_variable v = .ok x) ∧
    (∀ e, get_fill_value_for_variable v = .error e →
      v.fill_value = none ∧ alookup v.attributes "_FillValue" = none ∧
      alookup v.attributes "missing_value" = none ∧
      alookup DEFAULT_FILL_VALUES (get_dtype_string v) = none) ∧
    alookup DEFAULT_FILL_VALUES "int16" = some (NCVal.int (-32767)) := by
  refine ⟨?_, ?_, ?_, ?_, ?_, by decide⟩
  · intro x hx
    unfold get_fill_value_for_variable
    rw [hx]
  · intro h0 x hx
    unfold get_fill_value_for_variable
    rw [h0, hx]
  · intro h0 h1 x hx
    unfold get_fill_value_for_variable
    rw [h0, h1, hx]
  · intro h0 h1 h2 x hx
    unfold get_fill_value_for_variable
    rw [h0, h1, h2, hx]
  · intro e he
    unfold get_fill_value_for_variable at he
    cases h0 : v.fill_value with
    | some x => rw [h0] at he; exact absurd he (by simp)
    | none =>
      rw [h0] at he
      cases h1 : alookup v.attributes "_FillValue" with
      | some x => rw [h1] at he; exact absurd he (by simp)
      | none =>
        rw [h1] at he
        cases h2 : alookup v.attributes "missing_value" with
        | some x => rw [h2] at he; exact absurd he (by simp)
        | none =>
          rw [h2] at he
          cases h3 : alookup DEFAULT_FILL_VALUES (get_dtype_string v) with
          | some x => rw [h3] at he; exact absurd he (by simp)
          | none => exact ⟨rfl, rfl, rfl, rfl⟩

/-- A variable carrying both `_FillValue` and `missing_value`. -/
def fillDemoVar : Variable :=
  ⟨"int16", [], none, [],
    [("_FillValue", NCVal.int (-99)), ("missing_value", NCVal.int 5)],
    fun _ => NCVal.int 0⟩

theorem get_fill_value_resolution_witness :
    get_fill_value_for_variable fillDemoVar = .ok (NCVal.int (-99)) :=
  (get_fill_value_resolution fillDemoVar).2.1 rfl (NCVal.int (-99)) rfl

/-! ### Claim C8: mask dominance in warp -/

/-- C8: for every processed slice and every grid cell outside the
template grid's valid mask (mask true = invalid), the value written into
the output variable at that cell equals the resolved fill sentinel,
regardless of what the external resampling engine computes. -/
theorem warp_mask_dominance (varData : Nat → List Nat → NCVal)
    (templateMask : List Nat → Bool) (fill : NCVal)
    (reprojectEngine : (List Nat → NCVal) → (List Nat → NCVal) → (List Nat → NCVal))
    (i : Nat) (idx : List Nat) (h : templateMask idx = true) :
    warp_like_slices varData templateMask fill reprojectEngine i idx = fill := by
  simp [warp_like_slices, warpOneSlice, h]

theorem warp_mask_dominance_witness :
    warp_like_slices (fun _ _ => NCVal.int 7) (fun _ => true) (NCVal.int (-9999))
      (fun _ _ _ => NCVal.int 123) 0 [0, 0] = NCVal.int (-9999) :=
  warp_mask_dominance (fun _ _ => NCVal.int 7) (fun _ => true) (NCVal.int (-9999))
    (fun _ _ _ => NCVal.int 123) 0 [0, 0] rfl

/-! ### Claim C10: slice normalization -/

/-- C10: for a dimension whose supplied slice is `None` or has `None`
start, `extract_subset` replaces the entire slice by the dimension's full
current extent `[0, length)`; in particular an explicit stop bound on a
slice with unbounded start is ignored. -/
theorem extract_subset_slice_normalization (ds : Dataset) (dimension : String)
    (s : Option PySlice) (dim : Dimension)
    (hs : s = none ∨ (s.bind PySlice.start) = none)
    (hd : alookup ds.dimensions dimension = some dim) :
    normalizeSlice ds dimension s = .ok (some ⟨some 0, some dim.length⟩) := by
  unfold normalizeSlice
  rw [if_pos hs, hd]

theorem extract_subset_slice_normalization_witness :
    normalizeSlice demoSourceDs "t" (some ⟨none, some 5⟩) =
      .ok (some ⟨some 0, some 2⟩) :=
  extract_subset_slice_normalization demoSourceDs "t" (some ⟨none, some 5⟩)
    ⟨2, false⟩ (Or.inr rfl) rfl

/-! ### Claim C6: the BlocksizeTooSmall boundary -/

/-- C6: when the target size is at least the blocksize, the transfer
raises BlocksizeTooSmall as soon as the product of the non-leading target
axis lengths meets or exceeds the blocksize — including exact equality —
and no block transfer is attempted; below that boundary the chunked
transfer proceeds. -/
theorem extract_transfer_blocksize_boundary (blocksize : Nat) (targetShape : List Nat)
    (normSlices : List (Option PySlice)) (srcData : List Nat → NCVal)
    (vshape : List Nat) (base : List Nat → NCVal)
    (hsize : blocksize ≤ targetShape.prod) :
    (blocksize ≤ targetShape.tail.prod →
      extract_transfer blocksize targetShape normSlices srcData vshape base =
        .error "blocksize must be greater than the product of the shape for all secondary dimensions") ∧
    (targetShape.tail.prod < blocksize →
      ∀ start0 stop0 rest, normSlices = some ⟨some start0, some stop0⟩ :: rest →
      ∃ f, extract_transfer blocksize targetShape normSlices srcData vshape base = .ok f) := by
  constructor
  · intro htail
    simp only [extract_transfer]
    rw [if_neg (by omega), if_pos htail]
  · intro htail start0 stop0 rest hnorm
    simp only [extract_transfer]
    rw [if_neg (by omega), if_neg (by omega), hnorm]
    exact ⟨_, rfl⟩

theorem extract_transfer_blocksize_boundary_witness :
    extract_transfer 5 [4, 5] [] (fun _ => NCVal.int 0) [4, 5] (fun _ => NCVal.int 0) =
      .error "blocksize must be greater than the product of the shape for all secondary dimensions" :=
  (extract_transfer_blocksize_boundary 5 [4, 5] [] (fun _ => NCVal.int 0) [4, 5]
    (fun _ => NCVal.int 0) (by decide)).1 (by decide)

/-! ### Chunked-transfer evaluation lemmas (for blocksize invariance) -/

theorem chunkedLoop_nil_idx (srcData : List Nat → NCVal)
    (restSlices : List (Option PySlice)) (start0 stop0 increment tshape0 : Nat)
    (vshape : List Nat) (base : List Nat → NCVal) :
    ∀ m, chunkedLoop srcData restSlices start0 stop0 increment tshape0 vshape base m []
      = base [] := by
  intro m
  induction m with
  | zero => rfl
  | succ m ih =>
    cases vshape with
    | nil => simpa [chunkedLoop, writeRows] using ih
    | cons v0 vtail => simpa [chunkedLoop, writeRows] using ih

theorem chunkedLoop_cons_idx (srcData : List Nat → NCVal)
    (restSlices : List (Option PySlice)) (start0 stop0 increment tshape0 : Nat)
    (v0 : Nat) (vtail : List Nat) (base : List Nat → NCVal)
    (_hinc : 1 ≤ increment) :
    ∀ m j itail,
      chunkedLoop srcData restSlices start0 stop0 increment tshape0 (v0 :: vtail) base m
        (j :: itail) =
      if j < min (m * increment) tshape0 ∧ j < v0 ∧ inShape vtail itail = true then
        srcData ((start0 + j) :: List.zipWith pyOffset restSlices itail)
      else base (j :: itail) := by
  intro m
  induction m with
  | zero =>
    intro j itail
    rw [if_neg (by simp)]
    rfl
  | succ m ih =>
    intro j itail
    simp only [chunkedLoop, writeRows]
    by_cases hrest : inShape vtail itail = true
    · by_cases hv : j < v0
      · by_cases hin : m * increment ≤ j ∧ j < min (m * increment + increment) tshape0
        · rw [if_pos ⟨hin.1, hin.2, hv, hrest⟩]
          have hj2 : j < min ((m + 1) * increment) tshape0 := by
            have h2 := Nat.lt_min.mp hin.2
            exact Nat.lt_min.mpr ⟨by rw [Nat.succ_mul]; omega, h2.2⟩
          rw [if_pos ⟨hj2, hv, hrest⟩]
          show srcData ((start0 + m * increment + (j - m * increment)) ::
            List.zipWith pyOffset restSlices itail) = _
          rw [show start0 + m * increment + (j - m * increment) = start0 + j by omega]
        · rw [if_neg (fun hc => hin ⟨hc.1, hc.2.1⟩), ih]
          by_cases hj : j < min (m * increment) tshape0
          · have hj2 : j < min ((m + 1) * increment) tshape0 := by
              have h2 := Nat.lt_min.mp hj
              exact Nat.lt_min.mpr ⟨by rw [Nat.succ_mul]; omega, h2.2⟩
            rw [if_pos ⟨hj, hv, hrest⟩, if_pos ⟨hj2, hv, hrest⟩]
          · have hj2 : ¬(j < min ((m + 1) * increment) tshape0) := by
              intro hcon
              simp only [Nat.lt_min, Nat.succ_mul, not_and, not_le, not_lt] at hin hj hcon
              omega
            rw [if_neg (fun hc => hj hc.1), if_neg (fun hc => hj2 hc.1)]
      · rw [if_neg (fun hc => hv hc.2.2.1), ih,
          if_neg (fun hc => hv hc.2.1), if_neg (fun hc => hv hc.2.1)]
    · rw [if_neg (fun hc => hrest hc.2.2.2), ih,
        if_neg (fun hc => hrest hc.2.2), if_neg (fun hc => hrest hc.2.2)]

/-- Any successful transfer equals the single bulk assignment: the
decomposition into leading-axis blocks has no semantic effect. -/
theorem extract_transfer_canonical (B : Nat) (targetShape : List Nat)
    (normSlices : List (Option PySlice)) (srcData : List Nat → NCVal)
    (vshape : List Nat) (base : List Nat → NCVal) (f : List Nat → NCVal)
    (hv : targetShape ≠ [] → ∃ vtail, vshape = targetShape.headD 0 :: vtail)
    (h : extract_transfer B targetShape normSlices srcData vshape base = .ok f) :
    f = writeAll vshape base (readPy srcData normSlices) := by
  simp only [extract_transfer] at h
  by_cases h1 : targetShape.prod < B
  · rw [if_pos h1] at h
    injection h with h
    exact h.symm
  · rw [if_neg h1] at h
    by_cases h2 : B ≤ targetShape.tail.prod
    · rw [if_pos h2] at h
      exact absurd h (by simp)
    · rw [if_neg h2] at h
      cases hts : targetShape with
      | nil =>
        subst hts
        simp only [List.prod_nil, List.tail_nil, not_lt] at h1 h2
        omega
      | cons t0 ttail =>
        subst hts
        split at h
        case _ start0 stop0 restSlices =>
          simp only [Except.ok.injEq] at h
          subst h
          obtain ⟨vtail, hvs⟩ := hv (by simp)
          simp only [List.headD_cons] at hvs
          subst hvs
          simp only [List.prod_cons, List.tail_cons, not_lt, not_le] at h1 h2
          have hrest1 : 1 ≤ ttail.prod := by
            rcases Nat.eq_zero_or_pos ttail.prod with h0 | h0
            · rw [h0, Nat.mul_zero] at h1
              omega
            · exact h0
          have ht01 : 1 ≤ t0 := by
            rcases Nat.eq_zero_or_pos t0 with h0 | h0
            · rw [h0, Nat.zero_mul] at h1
              omega
            · exact h0
          have hincr : t0 * B / ((t0 :: ttail).prod) = B / ttail.prod := by
            simp only [List.prod_cons]
            exact Nat.mul_div_mul_left B ttail.prod ht01
          have hinc : 1 ≤ B / ttail.prod :=
            (Nat.one_le_div_iff hrest1).mpr (le_of_lt h2)
          funext idx
          cases idx with
          | nil =>
            rw [chunkedLoop_nil_idx]
            simp [writeAll, inShape]
          | cons j itail =>
            simp only [List.headD_cons] at *
            rw [hincr, chunkedLoop_cons_idx _ _ _ _ _ _ _ _ _ hinc]
            have hcov : t0 ≤ ((t0 + B / ttail.prod - 1) / (B / ttail.prod)) *
                (B / ttail.prod) := by
              have hdm := Nat.div_add_mod (t0 + B / ttail.prod - 1) (B / ttail.prod)
              have hlt := Nat.mod_lt (t0 + B / ttail.prod - 1)
                (show 0 < B / ttail.prod by omega)
              rw [Nat.mul_comm]
              omega
            have hmin : min (((t0 + B / ttail.prod - 1) / (B / ttail.prod)) *
                (B / ttail.prod)) t0 = t0 := Nat.min_eq_right hcov
            rw [hmin]
            simp only [writeAll, inShape, readPy]
            by_cases hj : j < t0
            · by_cases hsh : inShape vtail itail = true
              · rw [if_pos ⟨hj, hj, hsh⟩, if_pos (by simp [hj, hsh])]
                rfl
              · rw [if_neg (fun hc => hsh hc.2.2), if_neg (by simp [hsh])]
            · rw [if_neg (fun hc => hj hc.1), if_neg (by simp [hj])]
        case _ he =>
          exact absurd h (by simp)

/-! ### extract_subset preservation lemmas -/

/-- Existing dimension bindings are preserved. -/
def DimsPres (t t' : Dataset) : Prop :=
  ∀ k v, alookup t.dimensions k = some v → alookup t'.dimensions k = some v

/-- Existing variable bindings are preserved. -/
def VarsPres (t t' : Dataset) : Prop :=
  ∀ k v, alookup t.vars k = some v → alookup t'.vars k = some v

theorem extractStep_pres {tgt tgt1 : Dataset} {dimension : String}
    {sliceStart sliceStop : Nat}
    (heq : (match alookup tgt.dimensions dimension with
            | some target_dim =>
              if (target_dim.length : Int) = (sliceStop : Int) - (sliceStart : Int)
              then .ok tgt
              else .error "Target dimension already in target dataset, but with different length"
            | none =>
              if (sliceStop : Int) - (sliceStart : Int) < 0 then
                .error "ValueError: size must be positive"
              else createDimension tgt dimension
                ⟨((sliceStop : Int) - (sliceStart : Int)).toNat, false⟩ :
            Except String Dataset) = .ok tgt1) :
    DimsPres tgt tgt1 ∧ tgt1.vars = tgt.vars := by
  split at heq
  · split at heq
    · cases heq
      exact ⟨fun k v hv => hv, rfl⟩
    · exact absurd heq (by simp)
  · split at heq
    · exact absurd heq (by simp)
    · exact ⟨fun k v hv => createDimension_pres heq k v hv,
        (createDimension_ok heq).2.1⟩

theorem extractDimLoop_pres
    (recur : Dataset → Dataset → String → List (Option PySlice) → Option String →
      Nat → Option NCVal → Except String Dataset)
    (hrec : ∀ s t n sl tn B fk t', recur s t n sl tn B fk = .ok t' →
      DimsPres t t' ∧ VarsPres t t')
    (src : Dataset) (name : String) :
    ∀ (dims : List String) (slices : List (Option PySlice)) (tgt : Dataset)
      (out : Dataset × List Nat × List (Option PySlice)),
      extractDimLoop recur src name dims slices tgt = .ok out →
      DimsPres tgt out.1 ∧ VarsPres tgt out.1 := by
  intro dims
  induction dims with
  | nil =>
    intro slices tgt out h
    simp only [extractDimLoop, Except.ok.injEq] at h
    subst h
    exact ⟨fun k v hv => hv, fun k v hv => hv⟩
  | cons d rest ih =>
    intro slices tgt out h
    cases slices with
    | nil => exact absurd h (by simp [extractDimLoop])
    | cons s restSlices =>
      unfold extractDimLoop at h
      by_cases hdn : d = name
      · rw [if_pos hdn] at h
        simp only [Except.ok.injEq] at h
        subst h
        exact ⟨fun k v hv => hv, fun k v hv => hv⟩
      · rw [if_neg hdn] at h
        split at h
        · exact absurd h (by simp)
        · rename_i s1 hnorm
          split at h
          · rename_i sliceStart sliceStop
            split at h
            · exact absurd h (by simp)
            · rename_i tgt1 heq1
              have hp1 := extractStep_pres heq1
              split at h
              · exact absurd h (by simp)
              · rename_i tgt2 heq2
                have hp2 : DimsPres tgt1 tgt2 ∧ VarsPres tgt1 tgt2 := by
                  split at heq2
                  · exact hrec _ _ _ _ _ _ _ _ heq2
                  · cases heq2
                    exact ⟨fun k v hv => hv, fun k v hv => hv⟩
                split at h
                · exact absurd h (by simp)
                · rename_i tgtF shapeRest normRest hloop
                  simp only [Except.ok.injEq] at h
                  subst h
                  have hp3 := ih restSlices tgt2 (tgtF, shapeRest, normRest) hloop
                  refine ⟨fun k v hv => hp3.1 k v (hp2.1 k v (hp1.1 k v hv)), ?_⟩
                  intro k v hv
                  refine hp3.2 k v (hp2.2 k v ?_)
                  rw [show tgt1.vars = tgt.vars from hp1.2]
                  exact hv
          · exact absurd h (by simp)

theorem extract_subset_pres :
    ∀ (fuel : Nat) (s t : Dataset) (n : String) (sl : List (Option PySlice))
      (tn : Option String) (B : Nat) (fk : Option NCVal) (t' : Dataset),
      extract_subset fuel s t n sl tn B fk = .ok t' →
      DimsPres t t' ∧ VarsPres t t' := by
  intro fuel
  induction fuel with
  | zero =>
    intro s t n sl tn B fk t' h
    exact absurd h (by simp [extract_subset])
  | succ fuel ih =>
    intro s t n sl tn B fk t' h
    unfold extract_subset at h
    split at h
    · exact absurd h (by simp)
    · rename_i sv hsv
      by_cases harity : sl.length ≠ sv.dimensions.length
      · rw [if_pos harity] at h
        exact absurd h (by simp)
      · rw [if_neg harity] at h
        by_cases hcoll : (alookup t.vars n).isSome
        · rw [if_pos hcoll] at h
          exact absurd h (by simp)
        · rw [if_neg hcoll] at h
          split at h
          · exact absurd h (by simp)
          · rename_i tgt1 target_shape normSlices hloop
            have hp1 := extractDimLoop_pres (extract_subset fuel)
              (fun s2 t2 n2 sl2 tn2 B2 fk2 t2' hh =>
                ih s2 t2 n2 sl2 tn2 B2 fk2 t2' hh)
              s n sv.dimensions sl t (tgt1, target_shape, normSlices) hloop
            split at h
            · exact absurd h (by simp)
            · rename_i fv hfv
              split at h
              · exact absurd h (by simp)
              · rename_i tgt2 vsh hcv
                split at h
                · exact absurd h (by simp)
                · rename_i newData htr
                  simp only [Except.ok.injEq] at h
                  subst h
                  have hok := createVariableM_ok hcv
                  constructor
                  · intro k v hv
                    show alookup (updateVar (updateVar tgt2 _ _) _ _).dimensions k = some v
                    rw [updateVar_dimensions, updateVar_dimensions, hok.2.2.1]
                    exact hp1.1 k v hv
                  · intro k v hv
                    have hk1 : alookup tgt1.vars k = some v := hp1.2 k v hv
                    have hkn : ¬k = tn.getD n := by
                      intro hkeq
                      rw [hkeq] at hk1
                      rw [hok.1] at hk1
                      exact absurd hk1 (by simp)
                    show alookup (updateVar (updateVar tgt2 _ _) _ _).vars k = some v
                    rw [alookup_updateVar, if_neg hkn, alookup_updateVar, if_neg hkn,
                      hok.2.2.2, alookup_append_of_some _ hk1]

/-- Decomposition of a successful `extract_subset` run into its stages. -/
theorem extract_subset_ok_decomp (fuel : Nat) (src tgt : Dataset) (name : String)
    (slices : List (Option PySlice)) (tn : Option String) (B : Nat)
    (fk : Option NCVal) (ds : Dataset)
    (h : extract_subset (fuel + 1) src tgt name slices tn B fk = .ok ds) :
    ∃ sv tgt1 tshape norm fv tgt2 vsh newData,
      alookup src.vars name = some sv ∧
      slices.length = sv.dimensions.length ∧
      (alookup tgt.vars name).isSome = false ∧
      extractDimLoop (extract_subset fuel) src name sv.dimensions slices tgt =
        .ok (tgt1, tshape, norm) ∧
      resolveFillKw fk sv = .ok fv ∧
      createVariableM tgt1 (tn.getD name) sv.dtype sv.dimensions fv = .ok (tgt2, vsh) ∧
      extract_transfer B tshape norm sv.data vsh (fun _ => fv.getD (NCVal.int 0)) =
        .ok newData ∧
      ds = setMissingAttrs (setVarData tgt2 (tn.getD name) newData) (tn.getD name)
        sv.attributes := by
  unfold extract_subset at h
  split at h
  · exact absurd h (by simp)
  · rename_i sv hsv
    by_cases harity : slices.length ≠ sv.dimensions.length
    · rw [if_pos harity] at h
      exact absurd h (by simp)
    · rw [if_neg harity] at h
      by_cases hcoll : (alookup tgt.vars name).isSome
      · rw [if_pos hcoll] at h
        exact absurd h (by simp)
      · rw [if_neg hcoll] at h
        split at h
        · exact absurd h (by simp)
        · rename_i tgt1 tshape norm hloop
          split at h
          · exact absurd h (by simp)
          · rename_i fv hfv
            split at h
            · exact absurd h (by simp)
            · rename_i tgt2 vsh hcv
              split at h
              · exact absurd h (by simp)
              · rename_i newData htr
                simp only [Except.ok.injEq] at h
                exact ⟨sv, tgt1, tshape, norm, fv, tgt2, vsh, newData, hsv,
                  not_not.mp harity, Bool.not_eq_true _ ▸ eq_false_of_ne_true hcoll,
                  hloop, hfv, hcv, htr, h.symm⟩

/-- After a successful per-dimension loop with a nonempty target shape,
the leading dimension of the variable is bound in the resulting target
dataset with length equal to the leading target-shape entry. -/
theorem extractDimLoop_head
    (recur : Dataset → Dataset → String → List (Option PySlice) → Option String →
      Nat → Option NCVal → Except String Dataset)
    (hrec : ∀ s t n sl tn B fk t', recur s t n sl tn B fk = .ok t' →
      DimsPres t t' ∧ VarsPres t t')
    (src : Dataset) (name : String) :
    ∀ (dims : List String) (slices : List (Option PySlice)) (tgt : Dataset)
      (tgtF : Dataset) (tshape : List Nat) (norm : List (Option PySlice)),
      extractDimLoop recur src name dims slices tgt = .ok (tgtF, tshape, norm) →
      tshape = [] ∨
      ∃ d0 drest b, dims = d0 :: drest ∧
        alookup tgtF.dimensions d0 = some ⟨tshape.headD 0, b⟩ := by
  intro dims slices tgt tgtF tshape norm h
  cases dims with
  | nil =>
    simp only [extractDimLoop, Except.ok.injEq, Prod.mk.injEq] at h
    exact Or.inl h.2.1.symm
  | cons d rest =>
    cases slices with
    | nil => exact absurd h (by simp [extractDimLoop])
    | cons s restSlices =>
      unfold extractDimLoop at h
      by_cases hdn : d = name
      · rw [if_pos hdn] at h
        simp only [Except.ok.injEq, Prod.mk.injEq] at h
        exact Or.inl h.2.1.symm
      · rw [if_neg hdn] at h
        split at h
        · exact absurd h (by simp)
        · rename_i s1 hnorm
          split at h
          · rename_i sliceStart sliceStop
            split at h
            · exact absurd h (by simp)
            · rename_i tgt1 heq1
              have hd1 : ∃ b, alookup tgt1.dimensions d =
                  some ⟨sliceStop - sliceStart, b⟩ := by
                split at heq1
                · rename_i target_dim htd
                  split at heq1
                  · rename_i hlen
                    cases heq1
                    refine ⟨target_dim.isUnlimited, ?_⟩
                    have : target_dim.length = sliceStop - sliceStart := by omega
                    rw [← this]
                    exact htd
                  · exact absurd heq1 (by simp)
                · rename_i hnone
                  split at heq1
                  · exact absurd heq1 (by simp)
                  · rename_i hneg
                    refine ⟨false, ?_⟩
                    have hok := createDimension_ok heq1
                    rw [hok.1, alookup_append_of_none _ hok.2.2]
                    rw [show ((sliceStop : Int) - (sliceStart : Int)).toNat =
                      sliceStop - sliceStart by omega]
                    exact alookup_single_same _ _
              obtain ⟨b, hd1⟩ := hd1
              split at h
              · exact absurd h (by simp)
              · rename_i tgt2 heq2
                have hp2 : DimsPres tgt1 tgt2 := by
                  split at heq2
                  · exact (hrec _ _ _ _ _ _ _ _ heq2).1
                  · cases heq2
                    exact fun k v hv => hv
                split at h
                · exact absurd h (by simp)
                · rename_i tgtR shapeRest normRest hloop
                  simp only [Except.ok.injEq, Prod.mk.injEq] at h
                  obtain ⟨h1, h2, h3⟩ := h
                  refine Or.inr ⟨d, rest, b, rfl, ?_⟩
                  rw [← h2]
                  simp only [List.headD_cons]
                  have hp3 := (extractDimLoop_pres recur hrec src name rest restSlices
                    tgt2 (tgtR, shapeRest, normRest) hloop).1
                  rw [← h1]
                  exact hp3 d _ (hp2 d _ hd1)
          · exact absurd h (by simp)

/-! ### Claim C1: blocksize invariance -/

/-- C1: for every source Variable, slice specification and any two
admissible blocksizes (both runs succeed, i.e. neither triggers
BlocksizeTooSmall or any other failure), `extract_subset` produces
identical resulting datasets — in particular identical output arrays —
whether a run takes the single bulk assignment or the chunked
leading-axis path. -/
theorem extract_subset_blocksize_invariance (fuel : Nat) (src tgt : Dataset)
    (name : String) (slices : List (Option PySlice)) (target_name : Option String)
    (B1 B2 : Nat) (fk : Option NCVal) (ds1 ds2 : Dataset)
    (h1 : extract_subset fuel src tgt name slices target_name B1 fk = .ok ds1)
    (h2 : extract_subset fuel src tgt name slices target_name B2 fk = .ok ds2) :
    ds1 = ds2 := by
  cases fuel with
  | zero => exact absurd h1 (by simp [extract_subset])
  | succ fuel =>
    obtain ⟨sv, tgt1, tshape, norm, fv, tgt2, vsh, nd1, hsv, hlen, hcoll, hloop, hfv,
      hcv, htr1, hds1⟩ :=
      extract_subset_ok_decomp fuel src tgt name slices target_name B1 fk ds1 h1
    obtain ⟨sv', tgt1', tshape', norm', fv', tgt2', vsh', nd2, hsv', hlen', hcoll',
      hloop', hfv', hcv', htr2, hds2⟩ :=
      extract_subset_ok_decomp fuel src tgt name slices target_name B2 fk ds2 h2
    rw [hsv] at hsv'
    injection hsv' with hsv2
    subst hsv2
    rw [hloop] at hloop'
    simp only [Except.ok.injEq, Prod.mk.injEq] at hloop'
    obtain ⟨e1, e2, e3⟩ := hloop'
    subst e1
    subst e2
    subst e3
    rw [hfv] at hfv'
    injection hfv' with e4
    subst e4
    rw [hcv] at hcv'
    simp only [Except.ok.injEq, Prod.mk.injEq] at hcv'
    obtain ⟨e5, e6⟩ := hcv'
    subst e5
    subst e6
    have hv : tshape ≠ [] → ∃ vtail, vsh = tshape.headD 0 :: vtail := by
      intro hne
      rcases extractDimLoop_head (extract_subset fuel)
          (fun s2 t2 n2 sl2 tn2 B0 fk2 t2' hh =>
            extract_subset_pres fuel s2 t2 n2 sl2 tn2 B0 fk2 t2' hh)
          src name sv.dimensions slices tgt tgt1 tshape norm hloop with
        hnil | ⟨d0, drest, b, hdims, hlook⟩
      · exact absurd hnil hne
      · have hok := createVariableM_ok hcv
        rw [hdims] at hok
        obtain ⟨dim0, tl, hdim0, htl, hsh⟩ := computeShape_cons hok.2.1
        rw [hdim0] at hlook
        injection hlook with hlook
        refine ⟨tl, ?_⟩
        rw [hsh, hlook]
    have hc1 := extract_transfer_canonical B1 tshape norm sv.data vsh
      (fun _ => fv.getD (NCVal.int 0)) nd1 hv htr1
    have hc2 := extract_transfer_canonical B2 tshape norm sv.data vsh
      (fun _ => fv.getD (NCVal.int 0)) nd2 hv htr2
    rw [hds1, hds2, hc1, hc2]

/-- Concrete source for the C1 witness: a 4 x 2 variable. -/
def c1SourceDs : Dataset :=
  { dimensions := [("t", ⟨4, false⟩), ("x", ⟨2, false⟩)],
    vars := [("v", ⟨"int16", ["t", "x"], none, [4, 2], [],
      fun idx => NCVal.int (Int.ofNat (10 * idx.headD 0 + idx.tail.headD 0))⟩)] }

/-- The dataset produced by the C1 witness bulk run (blocksize 1000). -/
def c1Result1 : Dataset :=
  (extract_subset 2 c1SourceDs emptyDs "v"
    [some ⟨some 0, some 4⟩, some ⟨some 0, some 2⟩] none 1000 none).toOption.getD emptyDs

/-- The dataset produced by the C1 witness chunked run (blocksize 3). -/
def c1Result2 : Dataset :=
  (extract_subset 2 c1SourceDs emptyDs "v"
    [some ⟨some 0, some 4⟩, some ⟨some 0, some 2⟩] none 3 none).toOption.getD emptyDs

theorem extract_subset_blocksize_invariance_witness :
    extract_subset 2 c1SourceDs emptyDs "v"
      [some ⟨some 0, some 4⟩, some ⟨some 0, some 2⟩] none 1000 none = .ok c1Result1 ∧
    extract_subset 2 c1SourceDs emptyDs "v"
      [some ⟨some 0, some 4⟩, some ⟨some 0, some 2⟩] none 3 none = .ok c1Result2 ∧
    c1Result1 = c1Result2 :=
  ⟨rfl, rfl, extract_subset_blocksize_invariance 2 c1SourceDs emptyDs "v"
    [some ⟨some 0, some 4⟩, some ⟨some 0, some 2⟩] none 1000 3 none c1Result1 c1Result2
    rfl rfl⟩

/-! ### Claim C9: collision failures of extract_subset -/

/-- C9: `extract_subset` fails with the explicit already-present error
when `name` is already a Variable of the target dataset; and when an
explicit `target_name` already names a Variable of the target, the
operation never succeeds (the collision surfaces at variable creation at
the latest, since the target's variables are never removed). -/
theorem extract_subset_already_exists (fuel : Nat) (src tgt : Dataset) (name : String)
    (slices : List (Option PySlice)) (tn : Option String) (B : Nat) (fk : Option NCVal) :
    ((alookup tgt.vars name).isSome = true →
      ∀ sv, alookup src.vars name = some sv → slices.length = sv.dimensions.length →
        extract_subset (fuel + 1) src tgt name slices tn B fk =
          .error ("Variable with name " ++ name ++ " is already present in target dataset")) ∧
    (∀ t0, tn = some t0 → (alookup tgt.vars t0).isSome = true →
      ∀ ds, extract_subset fuel src tgt name slices tn B fk ≠ .ok ds) := by
  constructor
  · intro hcoll sv hsv hlen
    simp only [extract_subset, hsv]
    rw [if_neg (fun hne => hne hlen), if_pos hcoll]
  · intro t0 htn hcoll2 ds hok
    cases fuel with
    | zero => simp [extract_subset] at hok
    | succ fuel =>
      obtain ⟨sv, tgt1, tshape, norm, fv, tgt2, vsh, nd, hsv, hlen, hcoll, hloop, hfv,
        hcv, htr, hds⟩ :=
        extract_subset_ok_decomp fuel src tgt name slices tn B fk ds hok
      have hp := (extractDimLoop_pres (extract_subset fuel)
        (fun s2 t2 n2 sl2 tn2 B0 fk2 t2' hh =>
          extract_subset_pres fuel s2 t2 n2 sl2 tn2 B0 fk2 t2' hh)
        src name sv.dimensions slices tgt (tgt1, tshape, norm) hloop).2
      obtain ⟨v0, hv0⟩ := Option.isSome_iff_exists.mp hcoll2
      have hv1 : alookup tgt1.vars t0 = some v0 := hp t0 v0 hv0
      rw [htn] at hcv
      simp only [Option.getD_some] at hcv
      have hnone := (createVariableM_ok hcv).1
      rw [hv1] at hnone
      exact absurd hnone (by simp)

/-- Concrete source for the C9 witness. -/
def c9SourceDs : Dataset :=
  { dimensions := [("t", ⟨2, false⟩)],
    vars := [("v", ⟨"int16", ["t"], none, [2], [], fun _ => NCVal.int 1⟩),
             ("w", ⟨"int16", ["t"], none, [2], [], fun _ => NCVal.int 2⟩)] }

/-- Concrete target for the C9 witness: variable `w` already present. -/
def c9TargetDs : Dataset :=
  { dimensions := [], vars := [("w", ⟨"int16", [], none, [], [], fun _ => NCVal.int 0⟩)] }

theorem extract_subset_already_exists_witness :
    extract_subset 2 c9SourceDs c9TargetDs "w" [some ⟨some 0, some 2⟩] none 100 none =
      .error ("Variable with name " ++ "w" ++ " is already present in target dataset") ∧
    extract_subset 2 c9SourceDs c9TargetDs "v" [some ⟨some 0, some 2⟩]
      (some "w") 100 none ≠ .ok emptyDs := by
  constructor
  · exact (extract_subset_already_exists 1 c9SourceDs c9TargetDs "w"
      [some ⟨some 0, some 2⟩] none 100 none).1 rfl _ rfl rfl
  · exact (extract_subset_already_exists 2 c9SourceDs c9TargetDs "v"
      [some ⟨some 0, some 2⟩] (some "w") 100 none).2 "w" rfl rfl emptyDs

/-! ### Claim C7: concatenation along a new dimension -/

theorem labelWrites_lt (ls : List String) :
    ∀ (base : List Nat → NCVal) (start j : Nat), j < start →
      labelWrites base ls start [j] = base [j] := by
  induction ls with
  | nil => intro base start j _; rfl
  | cons l rest ih =>
    intro base start j hj
    show labelWrites _ rest (start + 1) [j] = base [j]
    rw [ih _ (start + 1) j (by omega)]
    have hne : ¬([j] : List Nat) = [start] := by
      simp only [List.cons.injEq, and_true]
      omega
    simp [hne]

theorem labelWrites_get (ls : List String) :
    ∀ (base : List Nat → NCVal) (start i : Nat) (hi : i < ls.length),
      labelWrites base ls start [start + i] = NCVal.str (ls.get ⟨i, hi⟩) := by
  induction ls with
  | nil => intro base start i hi; exact absurd hi (by simp)
  | cons l rest ih =>
    intro base start i hi
    cases i with
    | zero =>
      show labelWrites (fun idx => if idx = [start] then NCVal.str l else base idx)
        rest (start + 1) [start] = NCVal.str l
      rw [labelWrites_lt rest _ (start + 1) start (by omega)]
      simp
    | succ i2 =>
      show labelWrites _ rest (start + 1) [start + (i2 + 1)] = _
      rw [show start + (i2 + 1) = start + 1 + i2 by omega,
        ih _ (start + 1) i2 (by simpa using hi)]
      rfl

theorem concatDataLoop_lt (vn : String) :
    ∀ (dss : List Dataset) (start : Nat) (acc f : List Nat → NCVal),
      concatDataLoop vn dss start acc = .ok f →
      ∀ j itail, j < start → f (j :: itail) = acc (j :: itail) := by
  intro dss
  induction dss with
  | nil =>
    intro start acc f h j itail _
    simp only [concatDataLoop, Except.ok.injEq] at h
    subst h
    rfl
  | cons ds rest ih =>
    intro start acc f h j itail hj
    unfold concatDataLoop at h
    split at h
    · exact absurd h (by simp)
    · rename_i v hv
      rw [ih (start + 1) _ f h j itail (by omega)]
      show (if j = start then v.data itail else acc (j :: itail)) = acc (j :: itail)
      rw [if_neg (by omega)]

theorem concatDataLoop_get (vn : String) :
    ∀ (dss : List Dataset) (start : Nat) (acc f : List Nat → NCVal),
      concatDataLoop vn dss start acc = .ok f →
      ∀ i dsi sv, dss[i]? = some dsi → alookup dsi.vars vn = some sv →
        ∀ itail, f ((start + i) :: itail) = sv.data itail := by
  intro dss
  induction dss with
  | nil =>
    intro start acc f _ i dsi sv hget
    simp at hget
  | cons ds rest ih =>
    intro start acc f h i dsi sv hget hsv itail
    unfold concatDataLoop at h
    split at h
    · exact absurd h (by simp)
    · rename_i v hv
      cases i with
      | zero =>
        simp only [List.getElem?_cons_zero, Option.some.injEq] at hget
        subst hget
        rw [hv] at hsv
        injection hsv with hsv
        subst hsv
        show f (start :: itail) = _
        rw [concatDataLoop_lt vn rest (start + 1) _ f h start itail (by omega)]
        show (if start = start then v.data itail else acc (start :: itail)) = _
        rw [if_pos rfl]
      | succ i2 =>
        simp only [List.getElem?_cons_succ] at hget
        rw [show start + (i2 + 1) = start + 1 + i2 by omega]
        exact ih (start + 1) _ f h i2 dsi sv hget hsv itail

/-- C7: a successful `concat_variable_along_dimension` over at least two
sources creates the new dimension with length equal to the number of
sources, creates the output variable with the new dimension name
prepended to the template (first source) variable's dims, fills leading
index i with source i's full array in caller order (no sorting), and —
when an ordered label mapping was supplied — creates a string-typed
coordinate variable along the new dimension holding the labels in that
same order. -/
theorem concat_along_dimension_spec (fuel : Nat) (srcs : List Dataset)
    (labels : Option (List String)) (tgt : Dataset) (vn dn : String)
    (fk : Option NCVal) (ds' : Dataset) (template : Dataset) (tv : Variable)
    (h : concat_variable_along_dimension fuel srcs labels tgt vn dn fk = .ok ds')
    (hhead : srcs.head? = some template)
    (htv : alookup template.vars vn = some tv) :
    alookup ds'.dimensions dn = some ⟨srcs.length, false⟩ ∧
    (∃ outVar, alookup ds'.vars vn = some outVar ∧
      outVar.dimensions = dn :: tv.dimensions ∧
      (∀ i dsi sv, srcs[i]? = some dsi → alookup dsi.vars vn = some sv →
        ∀ itail, outVar.data (i :: itail) = sv.data itail)) ∧
    (∀ ls, labels = some ls → ∃ lv, alookup ds'.vars dn = some lv ∧
      lv.dtype = "string" ∧
      ∀ i (hi : i < ls.length), lv.data [i] = NCVal.str (ls.get ⟨i, hi⟩)) := by
  cases srcs with
  | nil => exact absurd hhead (by simp)
  | cons sd srest =>
    simp only [List.head?_cons, Option.some.injEq] at hhead
    subst hhead
    unfold concat_variable_along_dimension at h
    by_cases hn : (sd :: srest).length ≤ 1
    · rw [if_pos hn] at h
      exact absurd h (by simp)
    · rw [if_neg hn] at h
      split at h
      · exact absurd h (by simp)
      · rename_i sd2 srest2 heqcons
        injection heqcons with he1 he2
        subst he1
        subst he2
        split at h
        · exact absurd h (by simp)
        · rename_i sv hsv
          rw [htv] at hsv
          injection hsv with hsv
          subst hsv
          split at h
          · exact absurd h (by simp)
          · rename_i tgt1 hdim
            split at h
            · exact absurd h (by simp)
            · rename_i tgt2 hcd
              split at h
              · exact absurd h (by simp)
              · rename_i tgt3 hlab
                split at h
                · exact absurd h (by simp)
                · rename_i fv hfv
                  split at h
                  · exact absurd h (by simp)
                  · rename_i tgt4 sh2 hcv
                    split at h
                    · exact absurd h (by simp)
                    · rename_i newData hdl
                      simp only [Except.ok.injEq] at h
                      subst h
                      have hcdok := createDimension_ok hcd
                      have hcvok := createVariableM_ok hcv
                      have hdims3 : tgt3.dimensions = tgt2.dimensions := by
                        split at hlab
                        · cases hlab; rfl
                        · rename_i ls
                          split at hlab
                          · exact absurd hlab (by simp)
                          · rename_i t shL hcvL
                            cases hlab
                            rw [updateVar_dimensions]
                            exact (createVariableM_ok hcvL).2.2.1
                      refine ⟨?_, ⟨?_, ?_, ?_, ?_⟩, ?_⟩
                      · show alookup (updateVar (updateVar tgt4 _ _) _ _).dimensions dn
                          = _
                        rw [updateVar_dimensions, updateVar_dimensions, hcvok.2.2.1,
                          hdims3, hcdok.1, alookup_append_of_none _ hcdok.2.2]
                        exact alookup_single_same _ _
                      · exact ⟨tv.dtype, dn :: tv.dimensions, fv, sh2,
                          copyMissingAttrs [] tv.attributes, newData⟩
                      · have h4 : alookup tgt4.vars vn =
                            some ⟨tv.dtype, dn :: tv.dimensions, fv, sh2, [],
                              fun _ => fv.getD (NCVal.int 0)⟩ := by
                          rw [hcvok.2.2.2, alookup_append_of_none _ hcvok.1]
                          exact alookup_single_same _ _
                        show alookup (updateVar (updateVar tgt4 _ _) _ _).vars vn = _
                        rw [alookup_updateVar, if_pos rfl, alookup_updateVar, if_pos rfl,
                          h4]
                        rfl
                      · rfl
                      · intro i dsi sv2 hget hsv2 itail
                        show newData (i :: itail) = sv2.data itail
                        rw [show i = 0 + i by omega]
                        exact concatDataLoop_get vn (sd :: srest) 0 _ newData hdl i dsi
                          sv2 (by simpa using hget) hsv2 itail
                      · intro ls hls
                        subst hls
                        split at hlab
                        · rename_i heq
                          exact absurd heq (by simp)
                        · rename_i ls2 heq
                          injection heq with heq
                          subst heq
                          split at hlab
                          · exact absurd hlab (by simp)
                          · rename_i t shL hcvL
                            cases hlab
                            have hcvLok := createVariableM_ok hcvL
                            have ht : alookup t.vars dn =
                                some ⟨"string", [dn], none, shL, [],
                                  fun _ => (none : Option NCVal).getD (NCVal.int 0)⟩ := by
                              rw [hcvLok.2.2.2, alookup_append_of_none _ hcvLok.1]
                              exact alookup_single_same _ _
                            have h3 : alookup (updateVar t dn
                                (fun v => { v with data := labelWrites v.data ls 0 })).vars
                                dn = some ⟨"string", [dn], none, shL, [],
                                  labelWrites (fun _ =>
                                    (none : Option NCVal).getD (NCVal.int 0)) ls 0⟩ := by
                              rw [alookup_updateVar, if_pos rfl, ht]
                              rfl
                            have hne : ¬dn = vn := by
                              intro hdneq
                              have := hcvok.1
                              rw [← hdneq] at this
                              rw [h3] at this
                              exact absurd this (by simp)
                            refine ⟨⟨"string", [dn], none, shL, [],
                              labelWrites (fun _ =>
                                (none : Option NCVal).getD (NCVal.int 0)) ls 0⟩,
                              ?_, ?_, ?_⟩
                            · show alookup (updateVar (updateVar tgt4 _ _) _ _).vars dn
                                = _
                              rw [alookup_updateVar, if_neg hne, alookup_updateVar,
                                if_neg hne, hcvok.2.2.2, alookup_append_of_some _ h3]
                            · rfl
                            · intro i hi
                              have hg := labelWrites_get ls
                                (fun _ => (none : Option NCVal).getD (NCVal.int 0)) 0 i hi
                              rw [Nat.zero_add] at hg
                              exact hg

/-- First concrete source for the C7 witness (scalar variable). -/
def c7SourceA : Dataset :=
  { dimensions := [], vars := [("v", ⟨"int16", [], none, [], [], fun _ => NCVal.int 10⟩)] }

/-- Second concrete source for the C7 witness. -/
def c7SourceB : Dataset :=
  { dimensions := [], vars := [("v", ⟨"int16", [], none, [], [], fun _ => NCVal.int 20⟩)] }

/-- The dataset produced by the C7 witness run. -/
def c7ResultDs : Dataset :=
  (concat_variable_along_dimension 1 [c7SourceA, c7SourceB] (some ["2000", "2001"])
    emptyDs "v" "time" none).toOption.getD emptyDs

theorem concat_along_dimension_spec_witness :
    concat_variable_along_dimension 1 [c7SourceA, c7SourceB] (some ["2000", "2001"])
      emptyDs "v" "time" none = .ok c7ResultDs ∧
    alookup c7ResultDs.dimensions "time" = some ⟨2, false⟩ ∧
    (alookup c7ResultDs.vars "v").map Variable.dimensions = some ["time"] ∧
    (alookup c7ResultDs.vars "v").map (fun v => v.data [0]) = some (NCVal.int 10) ∧
    (alookup c7ResultDs.vars "v").map (fun v => v.data [1]) = some (NCVal.int 20) ∧
    (alookup c7ResultDs.vars "time").map Variable.dtype = some "string" ∧
    (alookup c7ResultDs.vars "time").map (fun v => v.data [0]) =
      some (NCVal.str "2000") ∧
    (alookup c7ResultDs.vars "time").map (fun v => v.data [1]) =
      some (NCVal.str "2001") := by
  obtain ⟨hdim, ⟨outVar, hov, hdims, hdata⟩, hlab⟩ :=
    concat_along_dimension_spec 1 [c7SourceA, c7SourceB] (some ["2000", "2001"])
      emptyDs "v" "time" none c7ResultDs c7SourceA _ rfl rfl rfl
  obtain ⟨lv, hlv, hlvt, hlvd⟩ := hlab ["2000", "2001"] rfl
  refine ⟨rfl, hdim, ?_, ?_, ?_, ?_, ?_, ?_⟩
  · rw [hov]
    simpa using hdims
  · rw [hov]
    simpa using hdata 0 c7SourceA _ rfl rfl []
  · rw [hov]
    simpa using hdata 1 c7SourceB _ rfl rfl []
  · rw [hlv]
    simpa using hlvt
  · rw [hlv]
    simpa using hlvd 0 (by decide)
  · rw [hlv]
    simpa using hlvd 1 (by decide)

end Clover
